import Mathlib

/-!
Verification of `iamyouare.go` (thockin/iamyouare): a shallow embedding of
the single source file's data model and operations.

Modelling conventions:
  * Go strings are modelled as `List Char` (Unicode code points).
  * `fmt.Sprintf` with the `%q` verb is modelled by `goQuote`, following
    `strconv.Quote` / `appendQuotedWith`: the quote character and `\\` are
    backslash-escaped, printable runes are emitted verbatim, the runes
    `\a \b \f \n \r \t \v` use their two-character escapes, other runes below
    `0x20` (and `0x7f`) use `\xHH`, other runes below `0x10000` use `\uHHHH`,
    and the rest use `\UHHHHHHHH`, with lowercase hex digits.
    `unicode.IsPrint` is kept as an oracle parameter `ip : Char → Bool`;
    `isPrintASCII` instantiates it on the ASCII range, where it agrees with
    Go exactly (ASCII runes are printable iff `0x20 ≤ r ≤ 0x7e`).
  * Network side effects are transcripts (lists of actions); blocking time is
    made explicit where a claim is about blocking.
  * `os.Exit` / `log.Fatalf` are modelled as absorbing outcomes.
-/

/-- One lowercase hexadecimal digit, as in Go's `lowerhex` table. -/
def lowerHexDigit (n : Nat) : Char :=
  if n < 10 then Char.ofNat (48 + n) else Char.ofNat (87 + n)

/-- Two lowercase hex digits of `n` (for Go's `\xHH` escapes). -/
def hex2 (n : Nat) : List Char :=
  [lowerHexDigit (n / 16 % 16), lowerHexDigit (n % 16)]

/-- Four lowercase hex digits of `n` (for Go's `\uHHHH` escapes). -/
def hex4 (n : Nat) : List Char :=
  [lowerHexDigit (n / 4096 % 16), lowerHexDigit (n / 256 % 16),
   lowerHexDigit (n / 16 % 16), lowerHexDigit (n % 16)]

/-- Eight lowercase hex digits of `n` (for Go's `\UHHHHHHHH` escapes). -/
def hex8 (n : Nat) : List Char :=
  hex4 (n / 65536) ++ hex4 (n % 65536)

/-- Go's `unicode.IsPrint` restricted to the ASCII range: an ASCII rune is
printable iff `0x20 ≤ r ≤ 0x7e`. Used to instantiate the `IsPrint` oracle at
concrete ASCII inputs, where it coincides with Go. -/
def isPrintASCII (c : Char) : Bool :=
  decide (0x20 ≤ c.toNat) && decide (c.toNat ≤ 0x7e)

/-- The escape of one rune inside a Go `%q` double-quoted string, following
`strconv.appendQuotedWith` with quote character `"`. -/
def goQuoteChar (ip : Char → Bool) (c : Char) : List Char :=
  if c = '"' ∨ c = '\\' then ['\\', c]
  else if ip c then [c]
  else if c = Char.ofNat 7 then ['\\', 'a']
  else if c = Char.ofNat 8 then ['\\', 'b']
  else if c = Char.ofNat 12 then ['\\', 'f']
  else if c = Char.ofNat 10 then ['\\', 'n']
  else if c = Char.ofNat 13 then ['\\', 'r']
  else if c = Char.ofNat 9 then ['\\', 't']
  else if c = Char.ofNat 11 then ['\\', 'v']
  else if c.toNat < 0x20 ∨ c.toNat = 0x7f then '\\' :: 'x' :: hex2 c.toNat
  else if c.toNat < 0x10000 then '\\' :: 'u' :: hex4 c.toNat
  else '\\' :: 'U' :: hex8 c.toNat

/-- Go `%q` on a string: a double-quoted form with each rune escaped by
`goQuoteChar`. -/
def goQuote (ip : Char → Bool) (s : List Char) : List Char :=
  '"' :: (s.flatMap (goQuoteChar ip) ++ ['"'])

/-- The literal part of the `%q` format string before the server value. -/
def msgPart1 : List Char := "\x7b\"server\":".toList

/-- The literal part of the `%q` format string between the two values. -/
def msgPart2 : List Char := ", \"client\":".toList

/-- The literal part of the `%q` format string after the client value. -/
def msgPart3 : List Char := "\x7d\n".toList

/-- `makeMessage` from the source:
`fmt.Sprintf("\x7b\"server\":%q, \"client\":%q\x7d\n", hostname, client)`. -/
def makeMessage (ip : Char → Bool) (hostname client : List Char) : List Char :=
  msgPart1 ++ goQuote ip hostname ++ msgPart2 ++ goQuote ip client ++ msgPart3

/-!
Spec-side JSON string decoding. Modelled from the spec: "values quoted and
escaped per standard JSON string rules" and "parsing the output as JSON
recovers the original input strings". `parseJSONStringAux` follows the
RFC 8259 string grammar: an unescaped character is any character ≥ `0x20`
other than `"` and `\\`; permitted escapes are
`\" \\\\ \/ \b \f \n \r \t \uHHHH` (hex case-insensitive; surrogate escape
pairs are not reconstructed, which does not affect any input used here).
Anything else — in particular Go's `\x` and `\a \v \U` escapes — is rejected.
-/

/-- Value of one hexadecimal digit character, if it is one. -/
def hexVal (c : Char) : Option Nat :=
  if 48 ≤ c.toNat ∧ c.toNat ≤ 57 then some (c.toNat - 48)
  else if 97 ≤ c.toNat ∧ c.toNat ≤ 102 then some (c.toNat - 87)
  else if 65 ≤ c.toNat ∧ c.toNat ≤ 70 then some (c.toNat - 55)
  else none

/-- Prepend a decoded character to the result of a string-parser tail call. -/
def consChar (c : Char) (o : Option (List Char × List Char)) :
    Option (List Char × List Char) :=
  o.map (fun p => (c :: p.1, p.2))

/-- Decode the body of a JSON string literal (after the opening quote) up to
the closing quote, returning the decoded characters and the remaining input. -/
def parseJSONStringAux : List Char → Option (List Char × List Char)
  | [] => none
  | c :: rest =>
    if c = '"' then some ([], rest)
    else if c = '\\' then
      match rest with
      | [] => none
      | e :: rest2 =>
        if e = '"' then consChar '"' (parseJSONStringAux rest2)
        else if e = '\\' then consChar '\\' (parseJSONStringAux rest2)
        else if e = '/' then consChar '/' (parseJSONStringAux rest2)
        else if e = 'b' then consChar (Char.ofNat 8) (parseJSONStringAux rest2)
        else if e = 'f' then consChar (Char.ofNat 12) (parseJSONStringAux rest2)
        else if e = 'n' then consChar (Char.ofNat 10) (parseJSONStringAux rest2)
        else if e = 'r' then consChar (Char.ofNat 13) (parseJSONStringAux rest2)
        else if e = 't' then consChar (Char.ofNat 9) (parseJSONStringAux rest2)
        else if e = 'u' then
          match rest2 with
          | h1 :: h2 :: h3 :: h4 :: rest3 =>
            match hexVal h1, hexVal h2, hexVal h3, hexVal h4 with
            | some a, some b, some c3, some d =>
              let n := ((a * 16 + b) * 16 + c3) * 16 + d
              if n < 0xd800 ∨ (0xdfff < n ∧ n < 0x110000) then
                consChar (Char.ofNat n) (parseJSONStringAux rest3)
              else none
            | _, _, _, _ => none
          | _ => none
        else none
    else if c.toNat < 0x20 then none
    else consChar c (parseJSONStringAux rest)

/-- Decode a JSON string literal at the head of the input, returning the
decoded value and the remaining input. -/
def parseJSONString : List Char → Option (List Char × List Char)
  | '"' :: rest => parseJSONStringAux rest
  | _ => none

/-- Strip an expected literal from the head of the input. -/
def stripPrefixChars : List Char → List Char → Option (List Char)
  | [], s => some s
  | _ :: _, [] => none
  | p :: ps, c :: cs => if p = c then stripPrefixChars ps cs else none

/-- Modelled from the spec: parse the emitted message as a JSON object with
exactly the two string fields `server` and `client` (in the emitted layout),
terminated by a newline, recovering the two decoded field values. -/
def parseMessage (s : List Char) : Option (List Char × List Char) :=
  (stripPrefixChars msgPart1 s).bind fun s1 =>
  (parseJSONString s1).bind fun p =>
  (stripPrefixChars msgPart2 p.2).bind fun s3 =>
  (parseJSONString s3).bind fun q =>
  if q.2 = msgPart3 then some (p.1, q.1) else none

/-- A character that Go `%q` emits verbatim and JSON accepts verbatim:
printable ASCII other than the quote and the backslash. Hostnames and
`addr:port` strings consist of such characters. -/
def plainChar (c : Char) : Prop :=
  0x20 ≤ c.toNat ∧ c.toNat ≤ 0x7e ∧ c ≠ '"' ∧ c ≠ '\\'

instance (c : Char) : Decidable (plainChar c) := by
  unfold plainChar; infer_instance

/-!
TCP listener. The source starts ONE goroutine running the accept loop; each
accepted connection is handled inline in that loop (remote address, log,
`conn.Write` with the result discarded, `conn.Close`) before the next
`Accept`. A connection is modelled with its peer address, the time its
blocking `Write` takes, and whether that `Write` returns an error.
-/

/-- One accepted TCP connection as the handler observes it. -/
structure TCPConn where
  addr : List Char
  writeTime : Nat
  writeErr : Bool
deriving DecidableEq

/-- An observable action of the TCP accept-loop goroutine. -/
inductive TCPAction where
  | logEvent (client : List Char)
  | write (data : List Char) (failed : Bool)
  | close
deriving DecidableEq

/-- The inline handling of one accepted connection (source lines 87-90):
derive the client string from the peer address, log, write one message
(error discarded), close. -/
def handleTCPConn (ip : Char → Bool) (hostname : List Char) (conn : TCPConn) :
    List TCPAction :=
  [TCPAction.logEvent conn.addr,
   TCPAction.write (makeMessage ip hostname conn.addr) conn.writeErr,
   TCPAction.close]

/-- What the accept loop sees at each iteration: a connection, or an error
from `Accept()`. -/
inductive AcceptEvent where
  | conn (c : TCPConn)
  | ioError
deriving DecidableEq

/-- Whether the serving loop is still running afterwards or has killed the
whole process (`log.Fatalf`). -/
inductive ServeOutcome where
  | running
  | fatalExit
deriving DecidableEq

/-- The TCP accept loop over a finite prefix of accept results: each
connection is handled inline; an `Accept()` error is fatal to the process
and nothing after it is processed. -/
def tcpServe (ip : Char → Bool) (hostname : List Char) :
    List AcceptEvent → List TCPAction × ServeOutcome
  | [] => ([], ServeOutcome.running)
  | AcceptEvent.ioError :: _ => ([], ServeOutcome.fatalExit)
  | AcceptEvent.conn c :: rest =>
    let r := tcpServe ip hostname rest
    (handleTCPConn ip hostname c ++ r.1, r.2)

/-- Accept times in the serialized loop: the handling of a connection
(dominated by its blocking `Write`) completes before the next `Accept`
returns, so connection `i` is accepted only after the write times of all
earlier connections have elapsed. -/
def tcpAcceptTimesFrom (now : Nat) : List TCPConn → List Nat
  | [] => []
  | c :: rest => now :: tcpAcceptTimesFrom (now + c.writeTime) rest

/-- Absolute accept times of a run of the loop starting at time 0. -/
def tcpAcceptTimes (conns : List TCPConn) : List Nat :=
  tcpAcceptTimesFrom 0 conns

/-!
UDP listener. One goroutine runs the receive loop with a fixed 16-byte
buffer; the payload is read into the buffer and never consulted; the reply
goes to the sender's address; the `WriteTo` result is discarded; a
`ReadFrom` error is fatal.
-/

/-- One received datagram: its payload bytes, the sender's address in the
textual form `cliAddr.String()`, and whether the reply `WriteTo` errors. -/
structure Datagram where
  payload : List Nat
  src : List Char
  sendErr : Bool
deriving DecidableEq

/-- An observable action of the UDP receive loop. -/
inductive UDPAction where
  | logEvent (client : List Char)
  | sendTo (dst : List Char) (data : List Char) (failed : Bool)
deriving DecidableEq

/-- The bytes that land in the loop's fixed `[16]byte` buffer. -/
def udpReadBuffer (d : Datagram) : List Nat :=
  d.payload.take 16

/-- Handling of one datagram (source lines 107-112): log the sender, send
one message back to the sender (error discarded). The payload is not used. -/
def handleDatagram (ip : Char → Bool) (hostname : List Char) (d : Datagram) :
    List UDPAction :=
  [UDPAction.logEvent d.src,
   UDPAction.sendTo d.src (makeMessage ip hostname d.src) d.sendErr]

/-- What the receive loop sees at each iteration: a datagram, or an error
from `ReadFrom()`. -/
inductive RecvEvent where
  | dgram (d : Datagram)
  | ioError
deriving DecidableEq

/-- The UDP receive loop: datagrams handled serially; a `ReadFrom()` error is
fatal to the process and nothing after it is processed. -/
def udpServe (ip : Char → Bool) (hostname : List Char) :
    List RecvEvent → List UDPAction × ServeOutcome
  | [] => ([], ServeOutcome.running)
  | RecvEvent.ioError :: _ => ([], ServeOutcome.fatalExit)
  | RecvEvent.dgram d :: rest =>
    let r := udpServe ip hostname rest
    (handleDatagram ip hostname d ++ r.1, r.2)

/-!
HTTP listener: the handler registered for `/` serves every path and method.
-/

/-- An HTTP request as the handler observes it. -/
structure HTTPRequest where
  method : List Char
  path : List Char
  remoteAddr : List Char
deriving DecidableEq

/-- The handler's response: the headers it set and the body it wrote. -/
structure HTTPResponse where
  headers : List (List Char × List Char)
  body : List Char
deriving DecidableEq

/-- The `Connection` header name. -/
def connectionHeader : List Char := "Connection".toList

/-- The `close` header value. -/
def closeValue : List Char := "close".toList

/-- The HTTP handler (source lines 117-123): add `Connection: close`, log,
write one message built from the request's remote address as the body. -/
def handleHTTP (ip : Char → Bool) (hostname : List Char) (r : HTTPRequest) :
    HTTPResponse :=
  { headers := [(connectionHeader, closeValue)],
    body := makeMessage ip hostname r.remoteAddr }

/-!
Bootstrap: flag defaulting, mode-exclusivity validation, listener startup.
-/

/-- The parsed command-line flags. -/
structure Flags where
  doTCP : Bool
  doUDP : Bool
  doHTTP : Bool
  port : Nat
deriving DecidableEq

/-- A protocol listener that got started. -/
inductive Proto where
  | tcp
  | udp
  | http
deriving DecidableEq

/-- Flag defaulting (source lines 63-65): if no mode is selected, HTTP is
enabled. -/
def applyDefault (f : Flags) : Flags :=
  if !f.doHTTP && !f.doTCP && !f.doUDP then { f with doHTTP := true } else f

/-- Mode validation (source lines 66-68): HTTP together with TCP or UDP is a
fatal configuration error. -/
def validateModes (f : Flags) : Option Flags :=
  let g := applyDefault f
  if g.doHTTP && (g.doTCP || g.doUDP) then none else some g

/-- The listeners a validated configuration starts, in source order. -/
def listenersOf (g : Flags) : List Proto :=
  (if g.doTCP then [Proto.tcp] else []) ++
  (if g.doUDP then [Proto.udp] else []) ++
  (if g.doHTTP then [Proto.http] else [])

/-- Bootstrap outcome: `none` is a fatal configuration error reported before
any listener starts; otherwise the list of started listeners. -/
def boot (f : Flags) : Option (List Proto) :=
  match validateModes f with
  | none => none
  | some g => some (listenersOf g)

/-!
Shutdown coordinator (source lines 130-146). The main goroutine loops on the
signal channel: SIGTERM spawns a goroutine that sleeps 60 seconds and then
calls `os.Exit(0)`; SIGINT calls `os.Exit(0)` at once; the loop then waits
for the next signal. The state tracks the remaining sleep time of every
spawned exit goroutine; time advances in one-second `tick` events that
decrement every timer, and a timer reaching zero fires `os.Exit(0)`.
-/

/-- The two subscribed signals. -/
inductive Sig where
  | term
  | intr
deriving DecidableEq

/-- An event the coordinator world can undergo: a delivered signal, or one
second of elapsed time. -/
inductive CEvent where
  | signal (s : Sig)
  | tick
deriving DecidableEq

/-- Coordinator state: remaining sleep times of the spawned exit timers.
`RUNNING` is the empty list; `DRAINING` is any nonempty list. -/
structure CoordState where
  timers : List Nat
deriving DecidableEq

/-- The initial (`RUNNING`) state: no exit timer pending. -/
def initialCoord : CoordState := ⟨[]⟩

/-- Result of one event: the process continues in a new state, or has exited
with the given code. -/
inductive StepRes where
  | cont (st : CoordState)
  | exited (code : Nat)
deriving DecidableEq

/-- One event of the coordinator: SIGINT exits 0 immediately; SIGTERM spawns
a fresh 60-second exit timer and keeps looping; a tick decrements every
timer, and any timer reaching zero exits 0. -/
def coordStep (st : CoordState) (e : CEvent) : StepRes :=
  match e with
  | CEvent.signal Sig.intr => StepRes.exited 0
  | CEvent.signal Sig.term => StepRes.cont ⟨60 :: st.timers⟩
  | CEvent.tick =>
    let ts := st.timers.map (fun t => t - 1)
    if 0 ∈ ts then StepRes.exited 0 else StepRes.cont ⟨ts⟩

/-- Run the coordinator over a finite event sequence; `exited` absorbs. -/
def coordRun (st : CoordState) : List CEvent → StepRes
  | [] => StepRes.cont st
  | e :: es =>
    match coordStep st e with
    | StepRes.cont st2 => coordRun st2 es
    | StepRes.exited c => StepRes.exited c

/-- `n` seconds of elapsed time with no further signals. -/
def ticks (n : Nat) : List CEvent :=
  List.replicate n CEvent.tick

/-- Number of elapsed seconds in an event sequence. -/
def numTicks : List CEvent → Nat
  | [] => 0
  | CEvent.tick :: es => numTicks es + 1
  | CEvent.signal _ :: es => numTicks es

/-! Helper lemmas. -/

theorem stripPrefixChars_append (p s : List Char) :
    stripPrefixChars p (p ++ s) = some s := by
  induction p with
  | nil => rfl
  | cons a p ih => simp [stripPrefixChars, ih]

theorem parseJSONStringAux_closeQuote (rest : List Char) :
    parseJSONStringAux ('"' :: rest) = some ([], rest) := by
  rw [parseJSONStringAux.eq_def]; simp

theorem parseJSONStringAux_escQuote (rest : List Char) :
    parseJSONStringAux ('\\' :: '"' :: rest) =
      consChar '"' (parseJSONStringAux rest) := by
  rw [parseJSONStringAux.eq_def]; simp

theorem parseJSONStringAux_escBackslash (rest : List Char) :
    parseJSONStringAux ('\\' :: '\\' :: rest) =
      consChar '\\' (parseJSONStringAux rest) := by
  rw [parseJSONStringAux.eq_def]; simp

theorem parseJSONStringAux_plain (c : Char) (h1 : c ≠ '"') (h2 : c ≠ '\\')
    (h3 : 0x20 ≤ c.toNat) (rest : List Char) :
    parseJSONStringAux (c :: rest) = consChar c (parseJSONStringAux rest) := by
  rw [parseJSONStringAux.eq_def]
  have h4 : ¬ c.toNat < 0x20 := by omega
  simp [h1, h2, h4]

theorem isPrintASCII_spec (c : Char) (h1 : 0x20 ≤ c.toNat)
    (h2 : c.toNat ≤ 0x7e) : isPrintASCII c = true := by
  simp [isPrintASCII]
  exact ⟨h1, h2⟩

theorem parseJSONStringAux_goQuote (ip : Char → Bool)
    (hip : ∀ c : Char, 0x20 ≤ c.toNat → c.toNat ≤ 0x7e → ip c = true)
    (s : List Char) (hs : ∀ c ∈ s, 0x20 ≤ c.toNat ∧ c.toNat ≤ 0x7e)
    (rest : List Char) :
    parseJSONStringAux (s.flatMap (goQuoteChar ip) ++ ('"' :: rest)) =
      some (s, rest) := by
  induction s with
  | nil => simpa using parseJSONStringAux_closeQuote rest
  | cons c s ih =>
    have hc := hs c (by simp)
    have hrec := ih (fun x hx => hs x (List.mem_cons_of_mem c hx))
    rw [List.flatMap_cons, List.append_assoc]
    by_cases hq : c = '"'
    · subst hq
      have : goQuoteChar ip '"' = ['\\', '"'] := by simp [goQuoteChar]
      rw [this]
      simp [parseJSONStringAux_escQuote, consChar, hrec]
    · by_cases hb : c = '\\'
      · subst hb
        have : goQuoteChar ip '\\' = ['\\', '\\'] := by simp [goQuoteChar]
        rw [this]
        simp [parseJSONStringAux_escBackslash, consChar, hrec]
      · have hip' : ip c = true := hip c hc.1 hc.2
        have : goQuoteChar ip c = [c] := by simp [goQuoteChar, hq, hb, hip']
        rw [this]
        simp [parseJSONStringAux_plain c hq hb hc.1, consChar, hrec]

theorem parseJSONString_goQuote (ip : Char → Bool)
    (hip : ∀ c : Char, 0x20 ≤ c.toNat → c.toNat ≤ 0x7e → ip c = true)
    (s : List Char) (hs : ∀ c ∈ s, 0x20 ≤ c.toNat ∧ c.toNat ≤ 0x7e)
    (rest : List Char) :
    parseJSONString (goQuote ip s ++ rest) = some (s, rest) := by
  have e : goQuote ip s ++ rest =
      '"' :: (s.flatMap (goQuoteChar ip) ++ ('"' :: rest)) := by
    simp [goQuote]
  rw [e]
  rw [show parseJSONString ('"' :: (s.flatMap (goQuoteChar ip) ++ ('"' :: rest)))
        = parseJSONStringAux (s.flatMap (goQuoteChar ip) ++ ('"' :: rest)) from rfl]
  exact parseJSONStringAux_goQuote ip hip s hs rest

theorem parseMessage_makeMessage (ip : Char → Bool)
    (hip : ∀ c : Char, 0x20 ≤ c.toNat → c.toNat ≤ 0x7e → ip c = true)
    (hostname client : List Char)
    (hh : ∀ c ∈ hostname, 0x20 ≤ c.toNat ∧ c.toNat ≤ 0x7e)
    (hc : ∀ c ∈ client, 0x20 ≤ c.toNat ∧ c.toNat ≤ 0x7e) :
    parseMessage (makeMessage ip hostname client) = some (hostname, client) := by
  have e : makeMessage ip hostname client =
      msgPart1 ++ (goQuote ip hostname ++
        (msgPart2 ++ (goQuote ip client ++ msgPart3))) := by
    simp [makeMessage]
  rw [e]
  unfold parseMessage
  rw [stripPrefixChars_append]
  simp only [Option.bind_some, Option.some_bind]
  rw [parseJSONString_goQuote ip hip hostname hh]
  simp only [Option.some_bind]
  rw [stripPrefixChars_append]
  simp only [Option.some_bind]
  rw [parseJSONString_goQuote ip hip client hc]
  simp

theorem goQuoteChar_mem_ge (ip : Char → Bool) (c : Char)
    (h1 : 0x20 ≤ c.toNat) (h2 : c.toNat ≤ 0x7e)
    (hip : ∀ x : Char, 0x20 ≤ x.toNat → x.toNat ≤ 0x7e → ip x = true) :
    ∀ x ∈ goQuoteChar ip c, 0x20 ≤ x.toNat := by
  intro x hx
  by_cases hq : c = '"' ∨ c = '\\'
  · rw [goQuoteChar, if_pos hq] at hx
    rcases List.mem_pair.mp hx with h | h <;> subst h
    · decide
    · rcases hq with h | h <;> subst h <;> decide
  · rw [goQuoteChar, if_neg hq, if_pos (hip c h1 h2)] at hx
    simp at hx
    subst hx
    exact h1

theorem goQuote_mem_ge (ip : Char → Bool) (s : List Char)
    (hs : ∀ c ∈ s, 0x20 ≤ c.toNat ∧ c.toNat ≤ 0x7e)
    (hip : ∀ x : Char, 0x20 ≤ x.toNat → x.toNat ≤ 0x7e → ip x = true) :
    ∀ x ∈ goQuote ip s, 0x20 ≤ x.toNat := by
  intro x hx
  rw [goQuote] at hx
  rcases List.mem_cons.mp hx with h | h
  · subst h; decide
  · rcases List.mem_append.mp h with h | h
    · obtain ⟨c, hcs, hcx⟩ := List.mem_flatMap.mp h
      exact goQuoteChar_mem_ge ip c (hs c hcs).1 (hs c hcs).2 hip x hcx
    · simp at h; subst h; decide

theorem makeMessage_single_line (ip : Char → Bool)
    (hip : ∀ c : Char, 0x20 ≤ c.toNat → c.toNat ≤ 0x7e → ip c = true)
    (hostname client : List Char)
    (hh : ∀ c ∈ hostname, 0x20 ≤ c.toNat ∧ c.toNat ≤ 0x7e)
    (hc : ∀ c ∈ client, 0x20 ≤ c.toNat ∧ c.toNat ≤ 0x7e) :
    ∃ line, makeMessage ip hostname client = line ++ ['\n'] ∧ '\n' ∉ line := by
  refine ⟨msgPart1 ++ goQuote ip hostname ++ msgPart2 ++ goQuote ip client
    ++ ['\x7d'], ?_, ?_⟩
  · simp [makeMessage, msgPart3]
  · intro hmem
    simp only [List.mem_append] at hmem
    rcases hmem with ((((h | h) | h) | h) | h)
    · revert h; decide
    · have := goQuote_mem_ge ip hostname hh hip '\n' h
      revert this; decide
    · revert h; decide
    · have := goQuote_mem_ge ip client hc hip '\n' h
      revert this; decide
    · revert h; decide

theorem goQuoteChar_plain (ip : Char → Bool)
    (hip : ∀ c : Char, 0x20 ≤ c.toNat → c.toNat ≤ 0x7e → ip c = true)
    (c : Char) (hc : plainChar c) : goQuoteChar ip c = [c] := by
  obtain ⟨h1, h2, h3, h4⟩ := hc
  have hn : ¬ (c = '"' ∨ c = '\\') := by
    rintro (h | h) <;> [exact h3 h; exact h4 h]
  rw [goQuoteChar, if_neg hn, if_pos (hip c h1 h2)]

theorem goQuote_plain (ip : Char → Bool)
    (hip : ∀ c : Char, 0x20 ≤ c.toNat → c.toNat ≤ 0x7e → ip c = true)
    (s : List Char) (hs : ∀ c ∈ s, plainChar c) :
    goQuote ip s = '"' :: (s ++ ['"']) := by
  have e : s.flatMap (goQuoteChar ip) = s := by
    induction s with
    | nil => rfl
    | cons c s ih =>
      rw [List.flatMap_cons, goQuoteChar_plain ip hip c (hs c (by simp)),
        ih (fun x hx => hs x (List.mem_cons_of_mem c hx))]
      rfl
  rw [goQuote, e]

theorem tcpServe_fatal (ip : Char → Bool) (hostname : List Char)
    (pre : List TCPConn) (post : List AcceptEvent) :
    tcpServe ip hostname (pre.map AcceptEvent.conn ++ AcceptEvent.ioError :: post)
      = (pre.flatMap (handleTCPConn ip hostname), ServeOutcome.fatalExit) := by
  induction pre with
  | nil => rfl
  | cons c pre ih => simp [tcpServe, ih]

theorem udpServe_fatal (ip : Char → Bool) (hostname : List Char)
    (pre : List Datagram) (post : List RecvEvent) :
    udpServe ip hostname (pre.map RecvEvent.dgram ++ RecvEvent.ioError :: post)
      = (pre.flatMap (handleDatagram ip hostname), ServeOutcome.fatalExit) := by
  induction pre with
  | nil => rfl
  | cons d pre ih => simp [udpServe, ih]

theorem tcpAcceptTimesFrom_get (c : TCPConn) (post : List TCPConn) :
    ∀ (pre : List TCPConn) (now : Nat),
    (tcpAcceptTimesFrom now (pre ++ c :: post))[pre.length]? =
      some (now + (pre.map TCPConn.writeTime).sum) := by
  intro pre
  induction pre with
  | nil => intro now; simp [tcpAcceptTimesFrom]
  | cons p pre ih =>
    intro now
    rw [List.cons_append, tcpAcceptTimesFrom]
    simp only [List.length_cons, List.getElem?_cons_succ, ih, List.map_cons,
      List.sum_cons]
    congr 1
    omega

theorem coordRun_exits (es : List CEvent) :
    ∀ (st : CoordState) (m : Nat),
    (∃ t ∈ st.timers, 1 ≤ t ∧ t ≤ m) → m ≤ numTicks es →
    coordRun st es = StepRes.exited 0 := by
  induction es with
  | nil =>
    intro st m ⟨t, _, h1, h2⟩ hm
    simp [numTicks] at hm
    omega
  | cons e es ih =>
    intro st m ⟨t, hmem, h1, h2⟩ hm
    cases e with
    | signal s =>
      cases s with
      | intr => rfl
      | term =>
        rw [show coordRun st (CEvent.signal Sig.term :: es)
              = coordRun ⟨60 :: st.timers⟩ es from rfl]
        exact ih ⟨60 :: st.timers⟩ m
          ⟨t, List.mem_cons_of_mem 60 hmem, h1, h2⟩ hm
    | tick =>
      rw [coordRun]
      rw [show coordStep st CEvent.tick =
            (if 0 ∈ st.timers.map (fun t => t - 1)
             then StepRes.exited 0
             else StepRes.cont ⟨st.timers.map (fun t => t - 1)⟩) from rfl]
      by_cases h0 : 0 ∈ st.timers.map (fun t => t - 1)
      · rw [if_pos h0]
      · rw [if_neg h0]
        have hmem2 : t - 1 ∈ st.timers.map (fun t => t - 1) :=
          List.mem_map_of_mem _ hmem
        have ht2 : 2 ≤ t := by
          rcases Nat.lt_or_ge t 2 with h | h
          · exfalso
            have : t - 1 = 0 := by omega
            rw [this] at hmem2
            exact h0 hmem2
          · exact h
        have hm2 : m - 1 ≤ numTicks es := by
          simp [numTicks] at hm
          omega
        exact ih ⟨st.timers.map (fun t => t - 1)⟩ (m - 1)
          ⟨t - 1, hmem2, by omega, by omega⟩ hm2

/-! Claim theorems. -/

/-- Claim C1: from `RUNNING` (no pending exit timer) a SIGTERM moves the
coordinator to `DRAINING` (a pending 60-second timer) and the process stays
alive — listeners still running — for every elapsed time shorter than the
60-second grace period, exiting with code 0 exactly when the grace period has
elapsed; a SIGINT in `RUNNING` exits with code 0 with no delay. -/
theorem shutdown_two_path_state_machine :
    coordStep initialCoord (CEvent.signal Sig.term) = StepRes.cont ⟨[60]⟩
    ∧ (∀ k, k < 60 → coordRun ⟨[60]⟩ (ticks k) = StepRes.cont ⟨[60 - k]⟩)
    ∧ coordRun ⟨[60]⟩ (ticks 60) = StepRes.exited 0
    ∧ coordStep initialCoord (CEvent.signal Sig.intr) = StepRes.exited 0 := by
  refine ⟨rfl, by decide, by decide, rfl⟩

/-- Witness for C1: 59 seconds into the grace period the process is still
alive, with one second left on the timer. -/
theorem shutdown_two_path_state_machine_witness :
    coordRun ⟨[60]⟩ (ticks 59) = StepRes.cont ⟨[1]⟩ :=
  shutdown_two_path_state_machine.2.1 59 (by decide)

/-- Claim C10: the coordinator is the looping variant. A SIGINT in any state
— also mid-countdown — exits 0 immediately; each further SIGTERM spawns a
fresh independent 60-second timer while keeping every existing timer
untouched; and over any event sequence with at least 60 seconds of elapsed
time after the first SIGTERM (whatever further signals arrive), the process
has exited with code 0. -/
theorem shutdown_looping_policy :
    (∀ st : CoordState, coordStep st (CEvent.signal Sig.intr) = StepRes.exited 0)
    ∧ (∀ st : CoordState,
        coordStep st (CEvent.signal Sig.term) = StepRes.cont ⟨60 :: st.timers⟩)
    ∧ (∀ es : List CEvent, 60 ≤ numTicks es →
        coordRun ⟨[60]⟩ es = StepRes.exited 0) := by
  refine ⟨fun st => rfl, fun st => rfl, fun es h => ?_⟩
  exact coordRun_exits es ⟨[60]⟩ 60 ⟨60, by simp, by omega, by omega⟩ h

/-- Witness for C10: a second SIGTERM during the countdown does not delay the
exit past 60 elapsed seconds, and a SIGINT mid-countdown exits at once. -/
theorem shutdown_looping_policy_witness :
    60 ≤ numTicks (CEvent.signal Sig.term :: ticks 60)
    ∧ coordRun ⟨[60]⟩ (CEvent.signal Sig.term :: ticks 60) = StepRes.exited 0
    ∧ coordStep ⟨[30]⟩ (CEvent.signal Sig.intr) = StepRes.exited 0 :=
  ⟨by decide, shutdown_looping_policy.2.2 _ (by decide),
    shutdown_looping_policy.1 ⟨[30]⟩⟩

/-- Counterexample to claim C2: the accept loop handles each connection
inline, so the time at which the second connection is accepted depends on how
long the first connection's blocking write takes — a slow client (write time
5) delays the next accept, refuting "handled without blocking the acceptance
of subsequent connections". -/
theorem tcp_slow_client_delays_next_accept :
    tcpAcceptTimes [⟨['a'], 5, false⟩, ⟨['b'], 0, false⟩]
      ≠ tcpAcceptTimes [⟨['a'], 0, false⟩, ⟨['b'], 0, false⟩] := by
  decide

/-- Claim C2 (amended): TCP connections are handled serially inside the
single accept-loop goroutine: a connection is accepted only once the blocking
writes of all earlier connections have completed, at time equal to the sum of
their write times. -/
theorem tcp_serialized_per_connection :
    ∀ (pre : List TCPConn) (c : TCPConn) (post : List TCPConn),
    (tcpAcceptTimes (pre ++ c :: post))[pre.length]? =
      some ((pre.map TCPConn.writeTime).sum) := by
  intro pre c post
  simpa using tcpAcceptTimesFrom_get c post pre 0

/-- Counterexample to claim C3: Go's `%q` escapes the control character
`U+0001` as `\x01`, which is not a legal JSON escape, so the emitted message
is not valid JSON and parsing it does not recover the input string. -/
theorem makeMessage_control_char_not_json :
    parseMessage (makeMessage isPrintASCII [Char.ofNat 1] []) = none ∧
    parseMessage (makeMessage isPrintASCII [Char.ofNat 1] [])
      ≠ some ([Char.ofNat 1], []) := by
  decide

/-- Claim C3 (amended): for server and client identity strings of printable
ASCII characters (`0x20`-`0x7e`, the alphabet of hostnames and `addr:port`
strings), under any `IsPrint` oracle that agrees with Go on that range, the
formatter produces a single newline-terminated line that parses as a JSON
object with exactly the two string fields `server` and `client`, recovering
the original strings. -/
theorem makeMessage_roundtrip_printable :
    ∀ (ip : Char → Bool),
    (∀ c : Char, 0x20 ≤ c.toNat → c.toNat ≤ 0x7e → ip c = true) →
    ∀ (hostname client : List Char),
    (∀ c ∈ hostname, 0x20 ≤ c.toNat ∧ c.toNat ≤ 0x7e) →
    (∀ c ∈ client, 0x20 ≤ c.toNat ∧ c.toNat ≤ 0x7e) →
    parseMessage (makeMessage ip hostname client) = some (hostname, client)
    ∧ ∃ line, makeMessage ip hostname client = line ++ ['\n'] ∧ '\n' ∉ line :=
  fun ip hip hostname client hh hc =>
    ⟨parseMessage_makeMessage ip hip hostname client hh hc,
     makeMessage_single_line ip hip hostname client hh hc⟩

/-- Witness for the amended C3: a concrete hostname and `addr:port` round-trip
through the formatter and the JSON parser. -/
theorem makeMessage_roundtrip_printable_witness :
    parseMessage (makeMessage isPrintASCII "host-1".toList "10.0.0.7:4242".toList)
      = some ("host-1".toList, "10.0.0.7:4242".toList) :=
  (makeMessage_roundtrip_printable isPrintASCII isPrintASCII_spec
    "host-1".toList "10.0.0.7:4242".toList (by decide) (by decide)).1

/-- Claim C4: HTTP mode together with TCP or UDP is a fatal configuration
error with no listener started; with no mode selected HTTP is the default;
TCP and UDP may run simultaneously. -/
theorem http_mode_exclusive_and_default :
    ∀ (t u hh : Bool) (p : Nat),
    (hh = true → (t = true ∨ u = true) → boot ⟨t, u, hh, p⟩ = none)
    ∧ boot ⟨false, false, false, p⟩ = some [Proto.http]
    ∧ boot ⟨true, true, false, p⟩ = some [Proto.tcp, Proto.udp] := by
  intro t u hh p
  refine ⟨?_, by simp [boot, validateModes, applyDefault, listenersOf],
    by simp [boot, validateModes, applyDefault, listenersOf]⟩
  intro h1 h2
  subst h1
  rcases h2 with h | h <;> subst h <;>
    simp [boot, validateModes, applyDefault]

/-- Witness for C4: `-tcp -http` is rejected with no listener started, and no
flags at all start exactly the HTTP listener. -/
theorem http_mode_exclusive_and_default_witness :
    boot ⟨true, false, true, 9376⟩ = none
    ∧ boot ⟨false, false, false, 9376⟩ = some [Proto.http] :=
  ⟨(http_mode_exclusive_and_default true false true 9376).1 rfl (Or.inl rfl),
   (http_mode_exclusive_and_default false false false 9376).2.1⟩

/-- Claim C5: for every accepted TCP connection whose peer address and
hostname are plain printable strings, the handler logs, writes exactly one
line of the literal form `\x7b"server":"<hostname>", "client":"<addr:port>"\x7d`
followed by a newline — with the client field the peer address — and then
immediately closes the connection. -/
theorem tcp_connection_single_line_then_close :
    ∀ (ip : Char → Bool),
    (∀ c : Char, 0x20 ≤ c.toNat → c.toNat ≤ 0x7e → ip c = true) →
    ∀ (hostname : List Char) (conn : TCPConn),
    (∀ c ∈ hostname, plainChar c) →
    (∀ c ∈ conn.addr, plainChar c) →
    handleTCPConn ip hostname conn =
      [TCPAction.logEvent conn.addr,
       TCPAction.write (msgPart1 ++ ('"' :: hostname) ++ ('"' :: msgPart2)
         ++ ('"' :: conn.addr) ++ ('"' :: msgPart3)) conn.writeErr,
       TCPAction.close] := by
  intro ip hip hostname conn hh ha
  unfold handleTCPConn
  rw [makeMessage, goQuote_plain ip hip hostname hh,
    goQuote_plain ip hip conn.addr ha]
  simp

/-- Witness for C5: the handler's transcript at a concrete hostname and peer
address. -/
theorem tcp_connection_single_line_then_close_witness :
    handleTCPConn isPrintASCII "myhost".toList ⟨"10.0.0.1:1234".toList, 0, false⟩ =
      [TCPAction.logEvent "10.0.0.1:1234".toList,
       TCPAction.write (msgPart1 ++ ('"' :: "myhost".toList) ++ ('"' :: msgPart2)
         ++ ('"' :: "10.0.0.1:1234".toList) ++ ('"' :: msgPart3)) false,
       TCPAction.close] :=
  tcp_connection_single_line_then_close isPrintASCII isPrintASCII_spec
    "myhost".toList ⟨"10.0.0.1:1234".toList, 0, false⟩ (by decide) (by decide)

/-- Claim C6: for every received datagram the payload is ignored (it only
lands in the fixed 16-byte buffer), and the server sends exactly one reply
datagram — the JSON line — back to the sender's address. -/
theorem udp_datagram_reply :
    ∀ (ip : Char → Bool) (hostname : List Char) (d : Datagram),
    handleDatagram ip hostname d =
      [UDPAction.logEvent d.src,
       UDPAction.sendTo d.src (makeMessage ip hostname d.src) d.sendErr]
    ∧ (∀ p1 p2 : List Nat, ∀ src : List Char, ∀ e : Bool,
        handleDatagram ip hostname ⟨p1, src, e⟩
          = handleDatagram ip hostname ⟨p2, src, e⟩)
    ∧ (udpReadBuffer d).length ≤ 16 := by
  intro ip hostname d
  refine ⟨rfl, fun p1 p2 src e => rfl, ?_⟩
  simp [udpReadBuffer]

/-- Claim C7: for every HTTP request — any path, any method — the handler
sets the `Connection: close` header and writes as the body exactly the line
built by the formatter from the hostname and the request's remote address. -/
theorem http_connection_close_and_body :
    ∀ (ip : Char → Bool) (hostname : List Char) (r : HTTPRequest),
    (connectionHeader, closeValue) ∈ (handleHTTP ip hostname r).headers
    ∧ (handleHTTP ip hostname r).body = makeMessage ip hostname r.remoteAddr
    ∧ (∀ m p : List Char,
        handleHTTP ip hostname ⟨m, p, r.remoteAddr⟩ = handleHTTP ip hostname r) :=
  fun ip hostname r => ⟨by simp [handleHTTP], rfl, fun m p => rfl⟩

/-- Claim C8: an I/O error from `Accept()` or `ReadFrom()` is fatal to the
whole process: the loop handles everything before the error, then the process
dies, and nothing after the error is processed — no retry. -/
theorem accept_receive_error_fatal :
    ∀ (ip : Char → Bool) (hostname : List Char)
      (pre : List TCPConn) (post : List AcceptEvent)
      (preD : List Datagram) (postD : List RecvEvent),
    tcpServe ip hostname (pre.map AcceptEvent.conn ++ AcceptEvent.ioError :: post)
      = (pre.flatMap (handleTCPConn ip hostname), ServeOutcome.fatalExit)
    ∧ udpServe ip hostname (preD.map RecvEvent.dgram ++ RecvEvent.ioError :: postD)
      = (preD.flatMap (handleDatagram ip hostname), ServeOutcome.fatalExit) :=
  fun ip hostname pre post preD postD =>
    ⟨tcpServe_fatal ip hostname pre post, udpServe_fatal ip hostname preD postD⟩

/-- Claim C9: a failed response write is ignored silently: the connection
transcript still has exactly one write followed by the close, and the rest of
the run — subsequent connections or datagrams — is exactly what it would be
had the write succeeded (the tail of the serve result does not depend on the
failed write). -/
theorem write_error_ignored :
    ∀ (ip : Char → Bool) (hostname : List Char) (c : TCPConn)
      (rest : List AcceptEvent) (d : Datagram) (restD : List RecvEvent),
    handleTCPConn ip hostname c =
      [TCPAction.logEvent c.addr,
       TCPAction.write (makeMessage ip hostname c.addr) c.writeErr,
       TCPAction.close]
    ∧ tcpServe ip hostname (AcceptEvent.conn c :: rest)
        = (handleTCPConn ip hostname c ++ (tcpServe ip hostname rest).1,
           (tcpServe ip hostname rest).2)
    ∧ udpServe ip hostname (RecvEvent.dgram d :: restD)
        = (handleDatagram ip hostname d ++ (udpServe ip hostname restD).1,
           (udpServe ip hostname restD).2) :=
  fun _ _ _ _ _ _ => ⟨rfl, rfl, rfl⟩
